import Mathlib

/-!
Shallow embedding of the BeePlan course-timetabling core
(`src/seng383/models.py`, `validate.py`, `constrains.py`, `scheduler.py`,
`timegrid.py`) and proofs checking the natural-language specification
against it.

Modelling conventions:
* Python `int` becomes `Int`; counters that can only grow become `Nat`.
* Python dicts keyed by hashable values become either association-style
  lookups over the original lists (`last` entry wins, as in a dict
  comprehension) or, for `dict` key iteration, first-occurrence
  deduplication of a list (`dedupFirst`), which is exactly the key order
  of an insertion-ordered Python dict.
* Python `sorted`/`list.sort` with a key function is a stable sort by a
  total preorder; it is modelled by `List.insertionSort`, which is stable,
  so it computes the same list as CPython's stable sort.
* Day names are an inductive type; where the source compares days as
  strings (tuple keys in `sorted`), the model compares the corresponding
  day strings by code points, exactly as CPython compares `str`.
* A dict lookup that would raise `KeyError` in Python is modelled as a
  total function returning a dummy record; no theorem below exercises a
  missing key.
-/

set_option maxHeartbeats 2000000

namespace BeePlan

/-- Days of the week used by the scheduler (the source type is the string
literal type `Day = Literal["Mon", ..., "Fri"]`). -/
inductive Day : Type
  | Mon
  | Tue
  | Wed
  | Thu
  | Fri
deriving DecidableEq, Repr

/-- The string the source stores for each day. -/
def dayStr : Day → String
  | .Mon => "Mon"
  | .Tue => "Tue"
  | .Wed => "Wed"
  | .Thu => "Thu"
  | .Fri => "Fri"

/-- Week ordinal Mon=0 .. Fri=4. The specification orders days by this
ordinal; the source nowhere defines it. -/
def dayOrd : Day → Nat
  | .Mon => 0
  | .Tue => 1
  | .Wed => 2
  | .Thu => 3
  | .Fri => 4

/-- Session type of an atom or a room (`SessionType = Literal["theory", "lab"]`). -/
inductive SessionType : Type
  | theory
  | lab
deriving DecidableEq, Repr

/-- Academic program (`class Program(str, Enum)`). -/
inductive Program : Type
  | CENG
  | SENG
deriving DecidableEq, Repr

/-- `models.TimeSlot`: a discrete weekly slot. -/
structure TimeSlot where
  day : Day
  index : Int
deriving DecidableEq, Repr

/-- `models.Course`. -/
structure Course where
  id : String
  name : String
  year : Int
  required : Bool
  weekly_theory_hours : Int
  weekly_lab_hours : Int
  instructor_id : String
  program : Program
  prefer_consecutive_lab : Bool := true
  expected_students : Option Int := none
deriving DecidableEq, Repr

/-- `models.Instructor`. -/
structure Instructor where
  id : String
  name : String
  availability : List TimeSlot
  max_daily_theory_hours : Int := 4
deriving DecidableEq, Repr

/-- `models.Room`. -/
structure Room where
  id : String
  name : String
  capacity : Int
  type : SessionType
deriving DecidableEq, Repr

/-- `models.CommonSchedule`. -/
structure CommonSchedule where
  days : List Day
  slots_per_day : Int
  forbidden_slots : List TimeSlot := []
deriving DecidableEq, Repr

/-- `models.SessionAtom` (a frozen, hashable dataclass in the source). -/
structure SessionAtom where
  course_id : String
  session_type : SessionType
  year : Int
  program : Program
  instructor_id : String
deriving DecidableEq, Repr

/-- `models.Placement`. -/
structure Placement where
  atom : SessionAtom
  slot : TimeSlot
  room_id : String
deriving DecidableEq, Repr

/-- `models.Schedule`: the ordered placement list. -/
structure Schedule where
  placements : List Placement := []
deriving DecidableEq, Repr

/-- `models.BeePlanConfig`. -/
structure BeePlanConfig where
  common : CommonSchedule
  courses : List Course
  instructors : List Instructor
  rooms : List Room
deriving DecidableEq, Repr

/-- `models.Violation`; `severity` is the literal `"hard"` or `"soft"`. -/
structure Violation where
  type : String
  message : String
  severity : String := "hard"
  slot : Option TimeSlot := none
  course_ids : Option (List String) := none
  instructor_id : Option String := none
  room_id : Option String := none
deriving DecidableEq, Repr

/-- `models.ScheduleResult`. -/
structure ScheduleResult where
  schedule : Schedule
  violations : List Violation
  warnings : List String
  attempts : Nat
  complete : Bool
deriving DecidableEq, Repr

/-! ### Generic helpers modelling Python dict/set behaviour -/

/-- Keys of an insertion-ordered dict built by assigning each list element
in turn: first occurrences, in order. -/
def dedupAux {α : Type} [DecidableEq α] : List α → List α → List α
  | [], _ => []
  | a :: rest, seen => if a ∈ seen then dedupAux rest seen else a :: dedupAux rest (a :: seen)

/-- First-occurrence deduplication (Python dict key order). -/
def dedupFirst {α : Type} [DecidableEq α] (l : List α) : List α :=
  dedupAux l []

/-- Dummy records standing in for a Python `KeyError`; never exercised by
the theorems below. -/
def dummyCourse : Course :=
  { id := "", name := "", year := 0, required := false, weekly_theory_hours := 0,
    weekly_lab_hours := 0, instructor_id := "", program := .CENG }

def dummyInstructor : Instructor :=
  { id := "", name := "", availability := [], max_daily_theory_hours := 0 }

def dummyRoom : Room :=
  { id := "", name := "", capacity := 0, type := .theory }

/-- `{c.id: c for c in courses}[cid]`: in a dict comprehension the last
entry with a given key wins. -/
def lookupCourse (courses : List Course) (cid : String) : Course :=
  ((courses.filter (fun c => c.id = cid)).getLast?).getD dummyCourse

def lookupInstructor (instructors : List Instructor) (iid : String) : Instructor :=
  ((instructors.filter (fun i => i.id = iid)).getLast?).getD dummyInstructor

def lookupRoom (rooms : List Room) (rid : String) : Room :=
  ((rooms.filter (fun r => r.id = rid)).getLast?).getD dummyRoom

/-- `availability_set.get(iid, set())` where `availability_set` maps each
instructor id to its availability set (last duplicate id wins). -/
def instructorAvail (instructors : List Instructor) (iid : String) : List TimeSlot :=
  match (instructors.filter (fun i => i.id = iid)).getLast? with
  | some i => i.availability
  | none => []

/-- Python `range(1, slots_per_day + 1)` as a list of `Int`. -/
def slotIndices (n : Int) : List Int :=
  (List.range n.toNat).map (fun k => ((k + 1 : Nat) : Int))

/-! ### `scheduler.build_atoms` and `scheduler.compute_initial_domains` -/

/-- `scheduler.build_atoms`: one theory atom per weekly theory hour and one
lab atom per weekly lab hour, per course, courses in order. -/
def build_atoms (courses : List Course) : List SessionAtom :=
  courses.flatMap (fun c =>
    List.replicate c.weekly_theory_hours.toNat
        ⟨c.id, .theory, c.year, c.program, c.instructor_id⟩
      ++ List.replicate c.weekly_lab_hours.toNat
        ⟨c.id, .lab, c.year, c.program, c.instructor_id⟩)

/-- `config.rooms` filtered to one session type, in list order
(`rooms_by_type[atom.session_type]`). -/
def roomsOfType (rooms : List Room) (st : SessionType) : List Room :=
  rooms.filter (fun r => r.type = st)

/-- The `(slot, room_id)` pair list computed for one atom by the body of
`scheduler.compute_initial_domains`: every grid slot that is not forbidden
and lies in the atom's instructor's availability, paired with every room
whose type matches the session type. The source applies no capacity
filter here. -/
def domainPairs (cfg : BeePlanConfig) (atom : SessionAtom) : List (TimeSlot × String) :=
  cfg.common.days.flatMap (fun d =>
    (slotIndices cfg.common.slots_per_day).flatMap (fun i =>
      if (⟨d, i⟩ : TimeSlot) ∈ cfg.common.forbidden_slots then []
      else if (⟨d, i⟩ : TimeSlot) ∈ instructorAvail cfg.instructors atom.instructor_id then
        (roomsOfType cfg.rooms atom.session_type).map (fun r => ((⟨d, i⟩ : TimeSlot), r.id))
      else []))

/-- `scheduler.compute_initial_domains` as the item list of the domains
dict: keys are the atoms in first-occurrence order (equal atoms collapse
onto one key), each mapped to its pair list. -/
def compute_initial_domains (cfg : BeePlanConfig) : List (SessionAtom × List (TimeSlot × String)) :=
  (dedupFirst (build_atoms cfg.courses)).map (fun a => (a, domainPairs cfg a))

/-! ### `models.Schedule.by_slot` views -/

/-- Key order of `Schedule.by_slot()`: the distinct slots in order of first
appearance among the placements. -/
def slotKeys (s : Schedule) : List TimeSlot :=
  dedupFirst (s.placements.map (fun p => p.slot))

/-- The group `by_slot()[t]`: all placements at slot `t`, in list order. -/
def atSlot (s : Schedule) (t : TimeSlot) : List Placement :=
  s.placements.filter (fun p => decide (p.slot = t))

/-! ### `constrains.py`: the violation evaluator -/

/-- `constrains.no_friday_exam_period`: one hard FORBIDDEN_SLOT violation
per placement sitting on a forbidden slot. -/
def no_friday_exam_period (s : Schedule) (common : CommonSchedule) : List Violation :=
  s.placements.filterMap (fun p =>
    if p.slot ∈ common.forbidden_slots then
      some { type := "FORBIDDEN_SLOT",
             message := p.atom.course_id ++ " scheduled in forbidden slot "
               ++ dayStr p.slot.day ++ "-" ++ toString p.slot.index,
             severity := "hard",
             slot := some p.slot,
             course_ids := some [p.atom.course_id],
             room_id := some p.room_id }
    else none)

/-- `constrains.room_type_and_capacity`: ROOM_TYPE and LAB_CAPACITY checks
for lab placements, ROOM_TYPE for theory placements, then the optional
ROOM_CAPACITY check (Python truthiness: `expected_students` of `None` or
`0` disables it). -/
def room_type_and_capacity (s : Schedule) (courses : List Course) (rooms : List Room) :
    List Violation :=
  s.placements.flatMap (fun p =>
    let r := lookupRoom rooms p.room_id
    let c := lookupCourse courses p.atom.course_id
    (if p.atom.session_type = .lab then
      (if r.type ≠ .lab then
        [{ type := "ROOM_TYPE", message := "Lab in non-lab room " ++ r.name,
           slot := some p.slot, course_ids := some [c.id], room_id := some r.id }]
       else [])
      ++ (if r.capacity > 40 then
        [{ type := "LAB_CAPACITY",
           message := "Lab capacity exceeds 40 in " ++ r.name ++ " (" ++ toString r.capacity ++ ")",
           slot := some p.slot, course_ids := some [c.id], room_id := some r.id }]
       else [])
     else
      (if r.type ≠ .theory then
        [{ type := "ROOM_TYPE", message := "Theory in lab room " ++ r.name,
           slot := some p.slot, course_ids := some [c.id], room_id := some r.id }]
       else []))
    ++ (match c.expected_students with
        | some e =>
          if e ≠ 0 ∧ r.capacity < e ∧ p.atom.session_type = .theory then
            [{ type := "ROOM_CAPACITY",
               message := "Room " ++ r.name ++ " capacity " ++ toString r.capacity
                 ++ " < expected " ++ toString e,
               slot := some p.slot, course_ids := some [c.id], room_id := some r.id }]
          else []
        | none => []))

/-- Keys of the `slot_map` defaultdict in
`constrains.instructor_overlap_and_daily_cap`: distinct
`(instructor, day, index)` triples in first-appearance order. -/
def insSlotKeys (s : Schedule) : List (String × Day × Int) :=
  dedupFirst (s.placements.map (fun p => (p.atom.instructor_id, p.slot.day, p.slot.index)))

/-- The course ids accumulated under one `slot_map` key. -/
def insSlotCourses (s : Schedule) (k : String × Day × Int) : List String :=
  (s.placements.filter
    (fun p => decide ((p.atom.instructor_id, p.slot.day, p.slot.index) = k))).map
    (fun p => p.atom.course_id)

/-- Keys of the `daily_theory_hours` defaultdict: distinct
`(instructor, day)` pairs of theory placements, in first-appearance order. -/
def insDayKeys (s : Schedule) : List (String × Day) :=
  dedupFirst ((s.placements.filter (fun p => decide (p.atom.session_type = .theory))).map
    (fun p => (p.atom.instructor_id, p.slot.day)))

/-- The count accumulated under one `daily_theory_hours` key. -/
def theoryCount (s : Schedule) (k : String × Day) : Nat :=
  (s.placements.filter (fun p =>
    decide (p.atom.session_type = .theory ∧ (p.atom.instructor_id, p.slot.day) = k))).length

/-- `constrains.instructor_overlap_and_daily_cap`. -/
def instructor_overlap_and_daily_cap (s : Schedule) (instructors : List Instructor) :
    List Violation :=
  ((insSlotKeys s).filterMap (fun k =>
    if (insSlotCourses s k).length > 1 then
      some { type := "INSTRUCTOR_OVERLAP",
             message := "Instructor " ++ k.1 ++ " overlap at "
               ++ dayStr k.2.1 ++ "-" ++ toString k.2.2,
             slot := some ⟨k.2.1, k.2.2⟩, instructor_id := some k.1,
             course_ids := some (insSlotCourses s k) }
    else none))
  ++ ((insDayKeys s).filterMap (fun k =>
    if (theoryCount s k : Int) > (lookupInstructor instructors k.1).max_daily_theory_hours then
      some { type := "INSTRUCTOR_THEORY_CAP",
             message := "Instructor " ++ k.1 ++ " exceeds "
               ++ toString (lookupInstructor instructors k.1).max_daily_theory_hours
               ++ " theory hours on " ++ dayStr k.2
               ++ " (" ++ toString (theoryCount s k : Int) ++ ")",
             slot := none, instructor_id := some k.1 }
    else none))

/-- The earliest (minimum) slot index among a course's placements of one
session type, as accumulated by the `earliest_*_slot` dicts of
`constrains.lab_after_theory`. Note: the source keeps only the intra-day
`slot.index` and ignores the day entirely. -/
def earliestIdx (s : Schedule) (st : SessionType) (cid : String) : Option Int :=
  ((s.placements.filter (fun p =>
    decide (p.atom.session_type = st ∧ p.atom.course_id = cid))).map
    (fun p => p.slot.index)).min?

/-- Distinct course ids having at least one lab placement, in
first-appearance order (the key order of `earliest_lab_slot`). -/
def labCourseIds (s : Schedule) : List String :=
  dedupFirst ((s.placements.filter (fun p => decide (p.atom.session_type = .lab))).map
    (fun p => p.atom.course_id))

/-- The LAB_AFTER_THEORY violation record emitted for a course. -/
def labViol (cid : String) : Violation :=
  { type := "LAB_AFTER_THEORY", message := "Lab scheduled before theory for " ++ cid,
    course_ids := some [cid], severity := "hard" }

/-- The decision taken by the loop body of `constrains.lab_after_theory`,
given the earliest lab index and the optional earliest theory index. -/
def labDecisionCore (cid : String) : Option Int → Option Int → Option Violation
  | some lidx, some tidx => if lidx ≤ tidx then some (labViol cid) else none
  | some _, none => some (labViol cid)
  | none, _ => none

/-- `constrains.lab_after_theory`: for each course with a lab placement,
emit a violation when the course has no theory placement or its earliest
lab slot index is not strictly greater than its earliest theory slot
index (indices only; days are not consulted). -/
def lab_after_theory (s : Schedule) : List Violation :=
  (labCourseIds s).filterMap (fun cid =>
    labDecisionCore cid (earliestIdx s .lab cid) (earliestIdx s .theory cid))

/-- `constrains.cohort_and_elective_constraints`: per occupied slot,
YEAR_OVERLAP on duplicate years, Y3_VS_ELECTIVES when any year-3 course
and any elective share the slot, PROGRAM_ELECTIVE_OVERLAP when a CENG
elective and a SENG elective share the slot. -/
def cohort_and_elective_constraints (s : Schedule) (courses : List Course) : List Violation :=
  (slotKeys s).flatMap (fun t =>
    let ps := atSlot s t
    let years := ps.map (fun p => (lookupCourse courses p.atom.course_id).year)
    let cids := ps.map (fun p => p.atom.course_id)
    (if years.Nodup then []
     else
      [{ type := "YEAR_OVERLAP",
         message := "Same-year overlap at " ++ dayStr t.day ++ "-" ++ toString t.index,
         slot := some t, course_ids := some cids }])
    ++ (if (ps.any (fun p => decide ((lookupCourse courses p.atom.course_id).year = 3)))
          ∧ (ps.any (fun p => decide ((lookupCourse courses p.atom.course_id).required = false))) then
      [{ type := "Y3_VS_ELECTIVES",
         message := "3rd-year courses overlap with electives at "
           ++ dayStr t.day ++ "-" ++ toString t.index,
         slot := some t, course_ids := some cids }]
     else [])
    ++ (if (ps.any (fun p =>
            let c := lookupCourse courses p.atom.course_id
            decide (c.required = false ∧ c.program = .CENG)))
          ∧ (ps.any (fun p =>
            let c := lookupCourse courses p.atom.course_id
            decide (c.required = false ∧ c.program = .SENG))) then
      [{ type := "PROGRAM_ELECTIVE_OVERLAP",
         message := "CENG and SENG electives overlap at "
           ++ dayStr t.day ++ "-" ++ toString t.index,
         slot := some t, course_ids := some cids }]
     else []))

/-- Sorted lab slot indices of one course (`indices.sort()`). -/
def labIdxSorted (s : Schedule) (cid : String) : List Int :=
  (((s.placements.filter (fun p =>
    decide (p.atom.session_type = .lab ∧ p.atom.course_id = cid))).map
    (fun p => p.slot.index))).insertionSort (· ≤ ·)

/-- `any(indices[i+1] == indices[i] + 1 for i in range(len(indices)-1))`. -/
def hasAdjacentPair : List Int → Bool
  | a :: b :: rest => decide (b = a + 1) || hasAdjacentPair (b :: rest)
  | _ => false

/-- `constrains.prefer_consecutive_lab` (soft). -/
def prefer_consecutive_lab (s : Schedule) (courses : List Course) : List Violation :=
  (labCourseIds s).filterMap (fun cid =>
    if (labIdxSorted s cid).length ≥ 2 ∧ hasAdjacentPair (labIdxSorted s cid) = false then
      (if (lookupCourse courses cid).prefer_consecutive_lab then
        some { type := "LAB_NON_CONSECUTIVE",
               message := "Lab hours not consecutive for " ++ cid,
               course_ids := some [cid], severity := "soft" }
       else none)
    else none)

/-- `constrains.collect_violations`: concatenation of all checks, in
source order. -/
def collect_violations (s : Schedule) (courses : List Course) (instructors : List Instructor)
    (rooms : List Room) (common : CommonSchedule) : List Violation :=
  no_friday_exam_period s common
    ++ room_type_and_capacity s courses rooms
    ++ instructor_overlap_and_daily_cap s instructors
    ++ lab_after_theory s
    ++ cohort_and_elective_constraints s courses
    ++ prefer_consecutive_lab s courses

/-! ### `validate.validate_config` -/

/-- The course loop of `validate.validate_config`, carrying the
`course_ids` set. Only course ids are checked for duplicates. -/
def checkCourses : List Course → List String → Except String Unit
  | [], _ => .ok ()
  | c :: rest, seen =>
    if c.id = "" ∨ c.year ∉ ([1, 2, 3, 4] : List Int) then
      .error ("Course '" ++ c.name ++ "' missing id or invalid year.")
    else if c.weekly_theory_hours < 0 ∨ c.weekly_lab_hours < 0 then
      .error ("Course " ++ c.id ++ " has negative weekly hours.")
    else if c.instructor_id = "" then
      .error ("Course " ++ c.id ++ " missing instructor_id.")
    else if c.id ∈ seen then
      .error ("Duplicate course id: " ++ c.id)
    else checkCourses rest (c.id :: seen)

/-- The instructor loop: validity checks only; ids are collected with no
duplicate check. -/
def checkInstructors : List Instructor → List String → Except String (List String)
  | [], acc => .ok acc
  | i :: rest, acc =>
    if i.id = "" ∨ i.name = "" then
      .error "Instructor missing id or name."
    else if i.availability = [] then
      .error ("Instructor " ++ i.id ++ " has empty availability.")
    else checkInstructors rest (i.id :: acc)

/-- The room loop: validity checks only; ids are collected with no
duplicate check. (The source's `type not in {"theory","lab"}` test can
never fire under the enum model of `SessionType`.) -/
def checkRooms : List Room → Except String Unit
  | [] => .ok ()
  | r :: rest =>
    if r.id = "" ∨ r.capacity ≤ 0 then
      .error ("Room " ++ r.id ++ " invalid capacity/type.")
    else checkRooms rest

/-- Referential integrity: every course's instructor id must be known. -/
def checkRefs (insIds : List String) : List Course → Except String Unit
  | [] => .ok ()
  | c :: rest =>
    if c.instructor_id ∈ insIds then checkRefs insIds rest
    else .error ("Course " ++ c.id ++ " references unknown instructor " ++ c.instructor_id ++ ".")

/-- `valid_slots = {(d, i) for d in days for i in range(1, slots_per_day + 1)}`. -/
def validSlots (common : CommonSchedule) : List (Day × Int) :=
  common.days.flatMap (fun d => (slotIndices common.slots_per_day).map (fun i => (d, i)))

/-- The availability grid check, instructor by instructor, first offending
slot reported. -/
def checkAvail (valid : List (Day × Int)) : List Instructor → Except String Unit
  | [] => .ok ()
  | ins :: rest =>
    match ins.availability.find? (fun ts => decide ((ts.day, ts.index) ∉ valid)) with
    | some ts =>
      .error ("Instructor " ++ ins.id ++ " availability out of grid: "
        ++ dayStr ts.day ++ "-" ++ toString ts.index ++ ".")
    | none => checkAvail valid rest

/-- The forbidden-slot grid check. -/
def checkForbidden (valid : List (Day × Int)) (l : List TimeSlot) : Except String Unit :=
  match l.find? (fun ts => decide ((ts.day, ts.index) ∉ valid)) with
  | some ts =>
    .error ("Forbidden slot out of grid: " ++ dayStr ts.day ++ "-" ++ toString ts.index ++ ".")
  | none => .ok ()

/-- `validate.validate_config`: `.ok ()` models silent completion,
`.error msg` models `raise InvalidInputError(msg)`. -/
def validate_config (cfg : BeePlanConfig) : Except String Unit :=
  if cfg.common.days = [] ∨ cfg.common.slots_per_day ≤ 0 then
    .error "Common schedule days/slots_per_day must be provided and > 0."
  else match checkCourses cfg.courses [] with
    | .error e => .error e
    | .ok _ =>
      match checkInstructors cfg.instructors [] with
      | .error e => .error e
      | .ok insIds =>
        match checkRooms cfg.rooms with
        | .error e => .error e
        | .ok _ =>
          match checkRefs insIds cfg.courses with
          | .error e => .error e
          | .ok _ =>
            match checkAvail (validSlots cfg.common) cfg.instructors with
            | .error e => .error e
            | .ok _ => checkForbidden (validSlots cfg.common) cfg.common.forbidden_slots

/-! ### `scheduler.sort_atoms_mrv` and candidate ordering -/

/-- String comparison key: the list of code points, on which the `List`
lexicographic order coincides with CPython's `str` comparison. -/
def strKey (s : String) : List Nat :=
  s.data.map Char.toNat

/-- The sort key of `sorted(domains[atom].pairs, key=lambda pr:
(pr[0].index, pr[0].day, pr[1]))`: slot index, then the day STRING, then
the room id, compared lexicographically as in a Python tuple. -/
def candKey (pr : TimeSlot × String) : Lex (Int × Lex (List Nat × List Nat)) :=
  toLex (pr.1.index, toLex (strKey (dayStr pr.1.day), strKey pr.2))

/-- The candidate order relation used by `place`. -/
def candR (x y : TimeSlot × String) : Prop :=
  candKey x ≤ candKey y

instance : DecidableRel candR := fun x y =>
  inferInstanceAs (Decidable (candKey x ≤ candKey y))

instance : IsTotal (TimeSlot × String) candR :=
  ⟨fun x y => le_total (candKey x) (candKey y)⟩

instance : IsTrans (TimeSlot × String) candR :=
  ⟨fun _ _ _ h h' => le_trans h h'⟩

/-- The per-atom candidate enumeration order of `place`: a stable sort of
the domain pairs by `candKey` (`sorted` in CPython is stable). -/
def sortCandidates (l : List (TimeSlot × String)) : List (TimeSlot × String) :=
  l.insertionSort candR

/-- Lexicographic `less-or-equal` on equal-length `Int` key tuples,
modelling Python tuple comparison inside `sorted(key=...)`. -/
def intLexLE : List Int → List Int → Bool
  | [], _ => true
  | _ :: _, [] => false
  | a :: as, b :: bs => decide (a < b) || (decide (a = b) && intLexLE as bs)

/-- The composite key of `scheduler.sort_atoms_mrv`. -/
def atomKey (courses : List Course) (dom : SessionAtom → List (TimeSlot × String))
    (a : SessionAtom) : List Int :=
  let c := lookupCourse courses a.course_id
  [if c.required then 0 else 1,
   -(c.weekly_theory_hours + c.weekly_lab_hours),
   if a.session_type = .lab then 0 else 1,
   ((dom a).length : Int),
   -c.year]

/-- `scheduler.sort_atoms_mrv` (stable sort by the composite key). -/
def sort_atoms_mrv (atoms : List SessionAtom) (dom : SessionAtom → List (TimeSlot × String))
    (courses : List Course) : List SessionAtom :=
  atoms.insertionSort (fun x y => intLexLE (atomKey courses dom x) (atomKey courses dom y) = true)

instance (courses : List Course) (dom : SessionAtom → List (TimeSlot × String)) :
    DecidableRel (fun x y => intLexLE (atomKey courses dom x) (atomKey courses dom y) = true) :=
  fun _ _ => inferInstanceAs (Decidable (_ = true))

/-! ### `scheduler.incremental_hard_violation` -/

/-- The per-slot duplicate room / duplicate instructor / duplicate year
check of `incremental_hard_violation`. -/
def groupConflict (s : Schedule) (courses : List Course) : Bool :=
  (slotKeys s).any (fun t =>
    let ps := atSlot s t
    !(decide ((ps.map (fun p => p.room_id)).Nodup))
      || !(decide ((ps.map (fun p => p.atom.instructor_id)).Nodup))
      || !(decide ((ps.map (fun p => (lookupCourse courses p.atom.course_id).year)).Nodup)))

/-- The quick forbidden-slot scan. -/
def forbiddenHit (s : Schedule) (common : CommonSchedule) : Bool :=
  s.placements.any (fun p => decide (p.slot ∈ common.forbidden_slots))

/-- The daily theory cap scan. -/
def theoryCapHit (s : Schedule) (instructors : List Instructor) : Bool :=
  (insDayKeys s).any (fun k =>
    decide ((theoryCount s k : Int) > (lookupInstructor instructors k.1).max_daily_theory_hours))

/-- The quick lab-after-theory scan (indices only, like the evaluator). -/
def labOrderHit (s : Schedule) : Bool :=
  (labCourseIds s).any (fun cid =>
    match earliestIdx s .lab cid, earliestIdx s .theory cid with
    | some lidx, some tidx => decide (lidx ≤ tidx)
    | some _, none => true
    | none, _ => false)

/-- `scheduler.incremental_hard_violation`: true when any quick hard check
fires on the partial schedule (the `rooms` argument is unused, as in the
source). -/
def incremental_hard_violation (s : Schedule) (courses : List Course)
    (instructors : List Instructor) (_rooms : List Room) (common : CommonSchedule) : Bool :=
  groupConflict s courses || forbiddenHit s common || theoryCapHit s instructors || labOrderHit s

/-! ### The backtracking engine (`place`) and `generate` -/

/-- The mutable state of the search: the shared placement list, both
occupancy index sets, and the `attempts` counter (`nonlocal attempts`). -/
structure SearchState where
  placements : List Placement
  used_room : List (String × Day × Int)
  used_ins : List (String × Day × Int)
  attempts : Nat
deriving DecidableEq, Repr

/-- `set.add` (idempotent). The search only ever adds keys that passed the
occupancy check, so the key is always fresh on the code path. -/
def setAdd {α : Type} [DecidableEq α] (l : List α) (x : α) : List α :=
  if x ∈ l then l else x :: l

/-- The push performed on a successful occupancy check: append the
placement and add both occupancy index keys. -/
def pushState (st : SearchState) (atom : SessionAtom) (slot : TimeSlot) (room_id : String) :
    SearchState :=
  { placements := st.placements ++ [⟨atom, slot, room_id⟩],
    used_room := setAdd st.used_room (room_id, slot.day, slot.index),
    used_ins := setAdd st.used_ins (atom.instructor_id, slot.day, slot.index),
    attempts := st.attempts }

/-- The revert on failure: pop the placement and remove both occupancy
index keys. -/
def popState (st : SearchState) (atom : SessionAtom) (slot : TimeSlot) (room_id : String) :
    SearchState :=
  { placements := st.placements.dropLast,
    used_room := st.used_room.erase (room_id, slot.day, slot.index),
    used_ins := st.used_ins.erase (atom.instructor_id, slot.day, slot.index),
    attempts := st.attempts }

/-- The candidate loop of `place(idx)`. `recur` is the recursive call
`place(idx + 1)` on the remaining atoms. For each candidate pair in
order: skip it when an occupancy index holds its key; otherwise push a
placement and both index keys, prune with `incremental_hard_violation`,
recurse, and on failure pop the placement and both keys and continue. -/
def tryLoop (recur : SearchState → Bool × SearchState) (cfg : BeePlanConfig)
    (atom : SessionAtom) : List (TimeSlot × String) → SearchState → Bool × SearchState
  | [], st => (false, st)
  | (slot, room_id) :: rest, st =>
    if (room_id, slot.day, slot.index) ∈ st.used_room then
      tryLoop recur cfg atom rest st
    else if (atom.instructor_id, slot.day, slot.index) ∈ st.used_ins then
      tryLoop recur cfg atom rest st
    else
      match (if incremental_hard_violation ⟨(pushState st atom slot room_id).placements⟩
            cfg.courses cfg.instructors cfg.rooms cfg.common then
          (false, pushState st atom slot room_id)
        else recur (pushState st atom slot room_id)) with
      | (true, st2) => (true, st2)
      | (false, st2) => tryLoop recur cfg atom rest (popState st2 atom slot room_id)

/-- `place(idx)` over the suffix of still-unplaced atoms: bump the step
counter, give up (False) past the step limit, succeed at the leaf, else
enumerate the sorted candidates of the next atom. -/
def place (cfg : BeePlanConfig) (limit : Nat) : List SessionAtom → SearchState → Bool × SearchState
  | [], st =>
    if st.attempts + 1 > limit then (false, { st with attempts := st.attempts + 1 })
    else (true, { st with attempts := st.attempts + 1 })
  | atom :: rest, st =>
    if st.attempts + 1 > limit then (false, { st with attempts := st.attempts + 1 })
    else
      tryLoop (fun s => place cfg limit rest s) cfg atom
        (sortCandidates (domainPairs cfg atom)) { st with attempts := st.attempts + 1 }

/-- The search variables of `generate`: `list(domains.keys())` (equal
atoms collapse onto one dict key) ordered by `sort_atoms_mrv`. -/
def searchAtoms (cfg : BeePlanConfig) : List SessionAtom :=
  sort_atoms_mrv (dedupFirst (build_atoms cfg.courses)) (domainPairs cfg) cfg.courses

/-- `place(0)` from the empty schedule and fresh indices. -/
def searchRun (cfg : BeePlanConfig) (limit : Nat) : Bool × SearchState :=
  place cfg limit (searchAtoms cfg) ⟨[], [], [], 0⟩

/-- `scheduler.generate`: validate, search, evaluate violations on the
final schedule, and package the result. `.error` models the raised
`InvalidInputError`. -/
def generate (cfg : BeePlanConfig) (limit : Nat := 300000) : Except String ScheduleResult :=
  match validate_config cfg with
  | .error e => .error e
  | .ok _ =>
    let res := searchRun cfg limit
    let schedule : Schedule := ⟨res.2.placements⟩
    let violations :=
      collect_violations schedule cfg.courses cfg.instructors cfg.rooms cfg.common
    let hard := violations.any (fun v => v.severity == "hard")
    .ok { schedule := schedule,
          violations := violations,
          warnings := (violations.filter (fun v => v.severity == "soft")).map (fun v => v.message),
          attempts := res.2.attempts,
          complete := res.1 && !hard }

instance {e a : Type} [DecidableEq e] [DecidableEq a] : DecidableEq (Except e a) := fun x y =>
  match x, y with
  | .ok u, .ok v => decidable_of_iff (u = v) (by simp)
  | .error u, .error v => decidable_of_iff (u = v) (by simp)
  | .ok _, .error _ => isFalse (by simp)
  | .error _, .ok _ => isFalse (by simp)

/-! ### Shared lemmas -/

theorem mem_slotIndices {n i : Int} : i ∈ slotIndices n ↔ 1 ≤ i ∧ i ≤ n := by
  simp only [slotIndices, List.mem_map, List.mem_range]
  constructor
  · rintro ⟨k, hk, rfl⟩
    omega
  · rintro ⟨h1, h2⟩
    exact ⟨(i - 1).toNat, by omega, by omega⟩

theorem mem_dedupAux {α : Type} [DecidableEq α] (a : α) (l : List α) :
    ∀ seen, a ∈ dedupAux l seen ↔ a ∈ l ∧ a ∉ seen := by
  induction l with
  | nil => intro seen; simp [dedupAux]
  | cons b rest ih =>
    intro seen
    by_cases hb : b ∈ seen
    · simp only [dedupAux, if_pos hb, ih seen, List.mem_cons]
      constructor
      · rintro ⟨h1, h2⟩
        exact ⟨Or.inr h1, h2⟩
      · rintro ⟨rfl | h1, h2⟩
        · exact absurd hb h2
        · exact ⟨h1, h2⟩
    · simp only [dedupAux, if_neg hb, List.mem_cons, ih (b :: seen), not_or]
      by_cases hab : a = b
      · subst hab
        tauto
      · tauto

theorem mem_dedupFirst {α : Type} [DecidableEq α] {a : α} {l : List α} :
    a ∈ dedupFirst l ↔ a ∈ l := by
  simp [dedupFirst, mem_dedupAux]

theorem mem_slotKeys {s : Schedule} {t : TimeSlot} :
    t ∈ slotKeys s ↔ ∃ p ∈ s.placements, p.slot = t := by
  simp [slotKeys, mem_dedupFirst, List.mem_map]

theorem mem_atSlot {s : Schedule} {t : TimeSlot} {p : Placement} :
    p ∈ atSlot s t ↔ p ∈ s.placements ∧ p.slot = t := by
  simp [atSlot, List.mem_filter]

theorem mem_labCourseIds {s : Schedule} {cid : String} :
    cid ∈ labCourseIds s ↔
      ∃ p ∈ s.placements, p.atom.session_type = .lab ∧ p.atom.course_id = cid := by
  simp only [labCourseIds, mem_dedupFirst, List.mem_map, List.mem_filter, decide_eq_true_eq]
  constructor
  · rintro ⟨p, ⟨hp, hlab⟩, rfl⟩
    exact ⟨p, hp, hlab, rfl⟩
  · rintro ⟨p, hp, hlab, rfl⟩
    exact ⟨p, ⟨hp, hlab⟩, rfl⟩

theorem earliestIdx_isSome {s : Schedule} {st : SessionType} {cid : String}
    (h : ∃ p ∈ s.placements, p.atom.session_type = st ∧ p.atom.course_id = cid) :
    ∃ l, earliestIdx s st cid = some l := by
  obtain ⟨p, hp, h1, h2⟩ := h
  rcases hmin : earliestIdx s st cid with _ | l
  · unfold earliestIdx at hmin
    rw [List.min?_eq_none_iff, List.map_eq_nil_iff, List.filter_eq_nil_iff] at hmin
    exact absurd (decide_eq_true (show _ ∧ _ from ⟨h1, h2⟩)) (hmin p hp)
  · exact ⟨l, rfl⟩

/-! ### Claim C1: the initial domains -/

/-- A configuration with a single lab atom and a single lab room of
capacity 50. -/
def cfgC1 : BeePlanConfig :=
  { common := { days := [.Mon], slots_per_day := 1, forbidden_slots := [] },
    courses := [{ id := "C", name := "C", year := 1, required := true, weekly_theory_hours := 0,
                  weekly_lab_hours := 1, instructor_id := "I", program := .CENG }],
    instructors := [{ id := "I", name := "N", availability := [⟨.Mon, 1⟩] }],
    rooms := [{ id := "L1", name := "BigLab", capacity := 50, type := .lab }] }

def atomC1 : SessionAtom := ⟨"C", .lab, 1, .CENG, "I"⟩

/-- Claim C1, counterexample: `compute_initial_domains` places the pair
`((Mon,1), "L1")` in the domain of a lab atom although room `"L1"` has
capacity 50 > 40 — the claimed capacity-at-most-40 condition on lab
candidates is not part of the domain computation. -/
theorem c1_counterexample :
    ((⟨.Mon, 1⟩ : TimeSlot), "L1") ∈ domainPairs cfgC1 atomC1 ∧
    (atomC1, domainPairs cfgC1 atomC1) ∈ compute_initial_domains cfgC1 ∧
    atomC1.session_type = .lab ∧
    (lookupRoom cfgC1.rooms "L1").capacity = 50 := by decide

/-- Claim C1 (amended): the domain computed by `compute_initial_domains`
for an atom is exactly the set of `(slot, room_id)` pairs with the slot in
the configured grid, not forbidden, inside the atom's instructor's
availability, and the room's type equal to the atom's session type. No
capacity condition is applied, not even for lab atoms. -/
theorem c1_domain_characterization (cfg : BeePlanConfig) (atom : SessionAtom)
    (slot : TimeSlot) (rid : String) :
    (slot, rid) ∈ domainPairs cfg atom ↔
      slot.day ∈ cfg.common.days ∧ 1 ≤ slot.index ∧ slot.index ≤ cfg.common.slots_per_day ∧
      slot ∉ cfg.common.forbidden_slots ∧
      slot ∈ instructorAvail cfg.instructors atom.instructor_id ∧
      ∃ r ∈ cfg.rooms, r.id = rid ∧ r.type = atom.session_type := by
  simp only [domainPairs, List.mem_flatMap]
  constructor
  · rintro ⟨d, hd, i, hi, hmem⟩
    rw [mem_slotIndices] at hi
    split at hmem
    · simp at hmem
    · split at hmem
      · obtain ⟨r, hr, heq⟩ := List.mem_map.mp hmem
        obtain ⟨hr, hrt⟩ := List.mem_filter.mp hr
        obtain ⟨h1, h2⟩ := Prod.mk.injEq .. ▸ heq
        subst h2
        cases slot
        cases h1
        refine ⟨hd, hi.1, hi.2, by assumption, by assumption, r, hr, rfl, ?_⟩
        exact of_decide_eq_true hrt
      · simp at hmem
  · rintro ⟨hday, h1, h2, hforb, havail, r, hr, hrid, hrt⟩
    refine ⟨slot.day, hday, slot.index, mem_slotIndices.mpr ⟨h1, h2⟩, ?_⟩
    rw [if_neg hforb, if_pos havail]
    exact List.mem_map.mpr ⟨r, List.mem_filter.mpr ⟨hr, decide_eq_true hrt⟩, by rw [hrid]⟩

/-! ### Claim C5: the LAB_AFTER_THEORY rule -/

/-- A schedule with theory at (Tue, 3) and lab at (Wed, 2) for one course. -/
def s5 : Schedule :=
  ⟨[⟨⟨"C", .theory, 1, .CENG, "I"⟩, ⟨.Tue, 3⟩, "R"⟩,
    ⟨⟨"C", .lab, 1, .CENG, "I"⟩, ⟨.Wed, 2⟩, "L"⟩]⟩

/-- Claim C5, counterexample: the evaluator compares earliest slot indices
only and ignores days. On `s5` the earliest lab (Wed, index 2) is strictly
after the earliest theory (Tue, index 3) in (day-ordinal, slot-index)
order, so by the claim no violation should be emitted; `lab_after_theory`
nevertheless emits a hard LAB_AFTER_THEORY violation because 2 <= 3. -/
theorem c5_counterexample :
    (lab_after_theory s5).length = 1 ∧
    (∃ v ∈ lab_after_theory s5, v.type = "LAB_AFTER_THEORY" ∧ v.severity = "hard") ∧
    earliestIdx s5 .lab "C" = some 2 ∧
    earliestIdx s5 .theory "C" = some 3 ∧
    dayOrd .Tue < dayOrd .Wed := by decide

/-- Claim C5 (amended): `lab_after_theory` emits a violation for a course
exactly when the schedule has a lab placement for it and either no theory
placement exists or the minimum lab slot INDEX is at most the minimum
theory slot INDEX — indices are compared across the whole week and the
day of a placement is never consulted. -/
theorem c5_lab_after_theory_characterization (s : Schedule) (cid : String) :
    (∃ v ∈ lab_after_theory s, v.course_ids = some [cid]) ↔
      (∃ p ∈ s.placements, p.atom.session_type = .lab ∧ p.atom.course_id = cid) ∧
      (earliestIdx s .theory cid = none ∨
        ∃ li ti, earliestIdx s .lab cid = some li ∧ earliestIdx s .theory cid = some ti ∧
          li ≤ ti) := by
  constructor
  · rintro ⟨v, hv, hcid⟩
    obtain ⟨c, hc, hfc⟩ := List.mem_filterMap.mp hv
    rcases hlab : earliestIdx s .lab c with _ | li <;> rw [hlab] at hfc
    · simp [labDecisionCore] at hfc
    rcases hth : earliestIdx s .theory c with _ | ti <;> rw [hth] at hfc
    · simp only [labDecisionCore, Option.some.injEq] at hfc
      have hceq : c = cid := by
        rw [← hfc] at hcid
        simpa [labViol] using hcid
      subst hceq
      exact ⟨mem_labCourseIds.mp hc, Or.inl hth⟩
    · by_cases hle : li ≤ ti
      · simp only [labDecisionCore, if_pos hle, Option.some.injEq] at hfc
        have hceq : c = cid := by
          rw [← hfc] at hcid
          simpa [labViol] using hcid
        subst hceq
        exact ⟨mem_labCourseIds.mp hc, Or.inr ⟨li, ti, hlab, hth, hle⟩⟩
      · simp only [labDecisionCore, if_neg hle] at hfc
        exact absurd hfc (by simp)
  · rintro ⟨hplab, hcond⟩
    have hc : cid ∈ labCourseIds s := mem_labCourseIds.mpr hplab
    obtain ⟨li, hlab⟩ := earliestIdx_isSome hplab
    refine ⟨labViol cid, List.mem_filterMap.mpr ⟨cid, hc, ?_⟩, rfl⟩
    rcases hcond with hth | ⟨li', ti, hlab', hth, hle⟩
    · rw [hlab, hth]
      rfl
    · rw [hlab', hth]
      simp only [labDecisionCore, if_pos hle]

/-! ### Claim C6: the Y3_VS_ELECTIVES rule -/

/-- A single year-3 ELECTIVE course. -/
def courses6 : List Course :=
  [{ id := "E3", name := "E3", year := 3, required := false, weekly_theory_hours := 1,
     weekly_lab_hours := 0, instructor_id := "I", program := .CENG }]

/-- A schedule placing only that year-3 elective, alone in its slot. -/
def s6 : Schedule :=
  ⟨[⟨⟨"E3", .theory, 3, .CENG, "I"⟩, ⟨.Mon, 1⟩, "R"⟩]⟩

/-- Claim C6, counterexample: a slot holding a single year-3 elective and
no year-3 required course still receives a hard Y3_VS_ELECTIVES
violation, because the evaluator tests for any year-3 course (not a
year-3 REQUIRED course) alongside any elective. -/
theorem c6_counterexample :
    (∃ v ∈ cohort_and_elective_constraints s6 courses6,
        v.type = "Y3_VS_ELECTIVES" ∧ v.severity = "hard") ∧
    (∀ p ∈ s6.placements,
        ¬ ((lookupCourse courses6 p.atom.course_id).year = 3 ∧
           (lookupCourse courses6 p.atom.course_id).required = true)) := by decide

/-- Claim C6 (amended): the evaluator reports Y3_VS_ELECTIVES at a slot
if and only if the placements there include at least one year-3 course —
required or elective — and at least one elective. -/
theorem c6_y3_characterization (s : Schedule) (courses : List Course) (t : TimeSlot) :
    (∃ v ∈ cohort_and_elective_constraints s courses,
        v.type = "Y3_VS_ELECTIVES" ∧ v.slot = some t) ↔
      (∃ p ∈ s.placements, p.slot = t ∧ (lookupCourse courses p.atom.course_id).year = 3) ∧
      (∃ p ∈ s.placements, p.slot = t ∧
        (lookupCourse courses p.atom.course_id).required = false) := by
  constructor
  · rintro ⟨v, hv, htype, hslot⟩
    rw [cohort_and_elective_constraints] at hv
    obtain ⟨t', ht', hv⟩ := List.mem_flatMap.mp hv
    simp only [List.mem_append] at hv
    rcases hv with (hv | hv) | hv
    · split at hv
      · simp at hv
      · rw [List.mem_singleton] at hv
        subst hv
        simp at htype
    · split at hv
      · rename_i hcond
        rw [List.mem_singleton] at hv
        subst hv
        obtain ⟨h3, he⟩ := hcond
        have ht'' : t' = t := by simpa using hslot
        subst ht''
        obtain ⟨p3, hp3, hy3⟩ := List.any_eq_true.mp h3
        obtain ⟨pe, hpe, hre⟩ := List.any_eq_true.mp he
        obtain ⟨hp3', hs3⟩ := mem_atSlot.mp hp3
        obtain ⟨hpe', hse⟩ := mem_atSlot.mp hpe
        exact ⟨⟨p3, hp3', hs3, of_decide_eq_true hy3⟩,
               ⟨pe, hpe', hse, of_decide_eq_true hre⟩⟩
      · simp at hv
    · split at hv
      · rw [List.mem_singleton] at hv
        subst hv
        simp at htype
      · simp at hv
  · rintro ⟨⟨p3, hp3, hs3, hy3⟩, ⟨pe, hpe, hse, hre⟩⟩
    have hcond : ((atSlot s t).any
          (fun p => decide ((lookupCourse courses p.atom.course_id).year = 3)) = true) ∧
        ((atSlot s t).any
          (fun p => decide ((lookupCourse courses p.atom.course_id).required = false)) = true) := by
      constructor
      · exact List.any_eq_true.mpr ⟨p3, mem_atSlot.mpr ⟨hp3, hs3⟩, decide_eq_true hy3⟩
      · exact List.any_eq_true.mpr ⟨pe, mem_atSlot.mpr ⟨hpe, hse⟩, decide_eq_true hre⟩
    refine ⟨{ type := "Y3_VS_ELECTIVES",
              message := "3rd-year courses overlap with electives at "
                ++ dayStr t.day ++ "-" ++ toString t.index,
              slot := some t,
              course_ids := some ((atSlot s t).map (fun p => p.atom.course_id)) },
            ?_, rfl, rfl⟩
    rw [cohort_and_elective_constraints]
    refine List.mem_flatMap.mpr ⟨t, mem_slotKeys.mpr ⟨p3, hp3, hs3⟩, ?_⟩
    refine List.mem_append.mpr (Or.inl (List.mem_append.mpr (Or.inr ?_)))
    rw [if_pos hcond]
    exact List.mem_singleton.mpr rfl

/-! ### Claim C7: candidate enumeration order -/

/-- One course whose instructor is free Monday slot 1 and Friday slot 1. -/
def cfgC7 : BeePlanConfig :=
  { common := { days := [.Mon, .Tue, .Wed, .Thu, .Fri], slots_per_day := 1,
                forbidden_slots := [] },
    courses := [{ id := "C", name := "C", year := 1, required := true, weekly_theory_hours := 1,
                  weekly_lab_hours := 0, instructor_id := "I", program := .CENG }],
    instructors := [{ id := "I", name := "N", availability := [⟨.Mon, 1⟩, ⟨.Fri, 1⟩] }],
    rooms := [{ id := "R", name := "R", capacity := 30, type := .theory }] }

/-- Claim C7, counterexample: with equal slot indices and equal room ids,
the engine orders Friday before Monday because `"Fri" < "Mon"` as
strings, although Monday's week ordinal is smaller; consequently
`generate` places the course on Friday, not Monday. The claimed
week-ordinal day order does not hold. -/
theorem c7_counterexample :
    sortCandidates [((⟨.Mon, 1⟩ : TimeSlot), "R"), ((⟨.Fri, 1⟩ : TimeSlot), "R")]
        = [((⟨.Fri, 1⟩ : TimeSlot), "R"), ((⟨.Mon, 1⟩ : TimeSlot), "R")] ∧
    dayOrd .Mon < dayOrd .Fri ∧
    (generate cfgC7 10).toOption.map (fun r => r.schedule.placements.map (fun p => p.slot))
        = some [⟨.Fri, 1⟩] := by decide

/-- Claim C7 (amended): `place` tries the candidate pairs of an atom as
`sortCandidates` orders them, which is the stable sort of the domain
pairs by the lexicographic key (slot index, day STRING, room id) — days
compare in string order ("Fri" < "Mon" < "Thu" < "Tue" < "Wed"), not by
week ordinal. -/
theorem c7_candidate_order (l : List (TimeSlot × String)) :
    List.Perm (sortCandidates l) l ∧ (sortCandidates l).Sorted candR :=
  ⟨List.perm_insertionSort candR l, List.sorted_insertionSort candR l⟩

/-! ### Claim C8: duplicate-id validation -/

/-- Two instructors sharing the id "I" and two rooms sharing the id "R",
in an otherwise well-formed configuration. -/
def cfgC8 : BeePlanConfig :=
  { common := { days := [.Mon], slots_per_day := 1, forbidden_slots := [] },
    courses := [],
    instructors := [{ id := "I", name := "A", availability := [⟨.Mon, 1⟩] },
                    { id := "I", name := "B", availability := [⟨.Mon, 1⟩] }],
    rooms := [{ id := "R", name := "R1", capacity := 10, type := .theory },
              { id := "R", name := "R2", capacity := 20, type := .theory }] }

/-- Claim C8, counterexample: `validate_config` completes silently on a
configuration with a duplicate instructor id AND a duplicate room id —
the validator collects those ids without any duplicate check. -/
theorem c8_counterexample :
    validate_config cfgC8 = .ok () ∧
    ¬ (cfgC8.instructors.map (fun i => i.id)).Nodup ∧
    ¬ (cfgC8.rooms.map (fun r => r.id)).Nodup := by decide

theorem checkCourses_dup : ∀ (l : List Course) (seen : List String),
    (¬ (l.map (fun c => c.id)).Nodup ∨ ∃ c ∈ l, c.id ∈ seen) →
    checkCourses l seen ≠ .ok () := by
  intro l
  induction l with
  | nil =>
    intro seen h
    rcases h with h | ⟨c, hc, _⟩
    · exact absurd List.nodup_nil h
    · exact absurd hc (List.not_mem_nil c)
  | cons c rest ih =>
    intro seen h
    simp only [checkCourses]
    split
    · simp
    split
    · simp
    split
    · simp
    split
    · simp
    rename_i h1 h2 h3 h4
    apply ih
    rcases h with h | ⟨c', hc', hcs⟩
    · by_cases hmem : c.id ∈ rest.map (fun c => c.id)
      · obtain ⟨c', hc', hcid⟩ := List.mem_map.mp hmem
        exact Or.inr ⟨c', hc', by rw [hcid]; exact List.mem_cons_self _ _⟩
      · rw [List.map_cons, List.nodup_cons] at h
        exact Or.inl (fun hnd => h ⟨hmem, hnd⟩)
    · rcases List.mem_cons.mp hc' with rfl | hc'
      · exact absurd hcs h4
      · exact Or.inr ⟨c', hc', List.mem_cons_of_mem _ hcs⟩

/-- Claim C8 (amended): `validate_config` rejects every configuration
holding a duplicate course id; duplicate instructor ids and duplicate
room ids are NOT checked and such configurations can validate silently. -/
theorem c8_dup_course_rejected (cfg : BeePlanConfig)
    (h : ¬ (cfg.courses.map (fun c => c.id)).Nodup) :
    validate_config cfg ≠ .ok () := by
  rw [validate_config]
  split
  · simp
  · cases hcc : checkCourses cfg.courses [] with
    | error e => simp
    | ok u =>
      cases u
      exact absurd hcc (checkCourses_dup cfg.courses [] (Or.inl h))

/-- Two courses sharing the id "C". -/
def cfgC8w : BeePlanConfig :=
  { common := { days := [.Mon], slots_per_day := 1, forbidden_slots := [] },
    courses := [{ id := "C", name := "C1", year := 1, required := true, weekly_theory_hours := 1,
                  weekly_lab_hours := 0, instructor_id := "I", program := .CENG },
                { id := "C", name := "C2", year := 2, required := true, weekly_theory_hours := 1,
                  weekly_lab_hours := 0, instructor_id := "I", program := .SENG }],
    instructors := [{ id := "I", name := "N", availability := [⟨.Mon, 1⟩] }],
    rooms := [{ id := "R", name := "R", capacity := 30, type := .theory }] }

/-- Claim C8, witness for the amended theorem at a concrete duplicated
course id. -/
theorem c8_dup_course_witness : validate_config cfgC8w ≠ .ok () :=
  c8_dup_course_rejected cfgC8w (by decide)

/-! ### Claim C4: there is no UNPLACED violation kind -/

theorem no_friday_no_unplaced (s : Schedule) (common : CommonSchedule) :
    ∀ v ∈ no_friday_exam_period s common, v.type ≠ "UNPLACED" := by
  intro v hv
  obtain ⟨p, _, hf⟩ := List.mem_filterMap.mp hv
  split at hf
  · rw [Option.some_inj] at hf
    subst hf
    simp
  · simp at hf

theorem room_type_no_unplaced (s : Schedule) (courses : List Course) (rooms : List Room) :
    ∀ v ∈ room_type_and_capacity s courses rooms, v.type ≠ "UNPLACED" := by
  intro v hv
  obtain ⟨p, _, hv⟩ := List.mem_flatMap.mp hv
  rcases List.mem_append.mp hv with hv | hv
  · split at hv
    · rcases List.mem_append.mp hv with hv | hv <;> split at hv <;>
        first
          | (rw [List.mem_singleton] at hv; subst hv; simp)
          | simp at hv
    · split at hv
      · rw [List.mem_singleton] at hv
        subst hv
        simp
      · simp at hv
  · split at hv
    · split at hv
      · rw [List.mem_singleton] at hv
        subst hv
        simp
      · simp at hv
    · simp at hv

theorem instructor_no_unplaced (s : Schedule) (instructors : List Instructor) :
    ∀ v ∈ instructor_overlap_and_daily_cap s instructors, v.type ≠ "UNPLACED" := by
  intro v hv
  rcases List.mem_append.mp hv with hv | hv <;>
    obtain ⟨k, _, hf⟩ := List.mem_filterMap.mp hv <;>
    split at hf <;>
    first
      | (rw [Option.some_inj] at hf; subst hf; simp)
      | simp at hf

theorem labDecisionCore_some {cid : String} {o1 o2 : Option Int} {v : Violation}
    (h : labDecisionCore cid o1 o2 = some v) : v = labViol cid := by
  rcases o1 with _ | l
  · rcases o2 with _ | t <;> simp [labDecisionCore] at h
  · rcases o2 with _ | t
    · simp only [labDecisionCore, Option.some_inj] at h
      exact h.symm
    · simp only [labDecisionCore] at h
      split at h
      · exact (Option.some_inj.mp h).symm
      · simp at h

theorem lab_after_no_unplaced (s : Schedule) :
    ∀ v ∈ lab_after_theory s, v.type ≠ "UNPLACED" := by
  intro v hv
  obtain ⟨c, _, hf⟩ := List.mem_filterMap.mp hv
  rw [labDecisionCore_some hf]
  simp [labViol]

theorem cohort_no_unplaced (s : Schedule) (courses : List Course) :
    ∀ v ∈ cohort_and_elective_constraints s courses, v.type ≠ "UNPLACED" := by
  intro v hv
  rw [cohort_and_elective_constraints] at hv
  obtain ⟨t, _, hv⟩ := List.mem_flatMap.mp hv
  rcases List.mem_append.mp hv with hv | hv
  · rcases List.mem_append.mp hv with hv | hv <;> split at hv <;>
      first
        | (rw [List.mem_singleton] at hv; subst hv; simp)
        | simp at hv
  · split at hv
    · rw [List.mem_singleton] at hv
      subst hv
      simp
    · simp at hv

theorem prefer_consecutive_no_unplaced (s : Schedule) (courses : List Course) :
    ∀ v ∈ prefer_consecutive_lab s courses, v.type ≠ "UNPLACED" := by
  intro v hv
  obtain ⟨c, _, hf⟩ := List.mem_filterMap.mp hv
  split at hf
  · split at hf
    · rw [Option.some_inj] at hf
      subst hf
      simp
    · simp at hf
  · simp at hf

/-- The full evaluator defines no UNPLACED kind at all. -/
theorem collect_violations_no_unplaced (s : Schedule) (courses : List Course)
    (instructors : List Instructor) (rooms : List Room) (common : CommonSchedule) :
    ∀ v ∈ collect_violations s courses instructors rooms common, v.type ≠ "UNPLACED" := by
  intro v hv
  rw [collect_violations] at hv
  rcases List.mem_append.mp hv with hv | hv
  rotate_left
  · exact prefer_consecutive_no_unplaced s courses v hv
  rcases List.mem_append.mp hv with hv | hv
  rotate_left
  · exact cohort_no_unplaced s courses v hv
  rcases List.mem_append.mp hv with hv | hv
  rotate_left
  · exact lab_after_no_unplaced s v hv
  rcases List.mem_append.mp hv with hv | hv
  rotate_left
  · exact instructor_no_unplaced s instructors v hv
  rcases List.mem_append.mp hv with hv | hv
  · exact no_friday_no_unplaced s common v hv
  · exact room_type_no_unplaced s courses rooms v hv

/-- A single one-hour theory course whose only available slot is
forbidden: its atom can never be placed. -/
def cfgC4 : BeePlanConfig :=
  { common := { days := [.Fri], slots_per_day := 1, forbidden_slots := [⟨.Fri, 1⟩] },
    courses := [{ id := "C", name := "C", year := 1, required := true, weekly_theory_hours := 1,
                  weekly_lab_hours := 0, instructor_id := "I", program := .CENG }],
    instructors := [{ id := "I", name := "N", availability := [⟨.Fri, 1⟩] }],
    rooms := [{ id := "R", name := "R", capacity := 30, type := .theory }] }

/-- Claim C4, counterexample: on `cfgC4` the course's only atom is never
placed and `generate` returns `complete = false`, yet the returned
violation list is EMPTY — in particular it contains no hard UNPLACED
violation for the course. -/
theorem c4_counterexample :
    (build_atoms cfgC4.courses).length = 1 ∧
    (generate cfgC4 50).toOption.map
        (fun r => (r.complete, r.violations, r.schedule.placements))
      = some (false, [], []) := by decide

/-- Claim C4 (amended): whatever configuration and step limit, the
violation list of the returned `ScheduleResult` never contains an
UNPLACED violation, because `collect_violations` implements no such
kind; an unplaced course is signalled only through `complete = false`. -/
theorem c4_no_unplaced_kind (cfg : BeePlanConfig) (limit : Nat) (r : ScheduleResult)
    (hgen : generate cfg limit = .ok r) :
    r.violations.all (fun v => !(v.type == "UNPLACED")) = true := by
  rw [generate] at hgen
  split at hgen
  · simp at hgen
  · rw [Except.ok.injEq] at hgen
    subst hgen
    rw [List.all_eq_true]
    intro v hv
    have := collect_violations_no_unplaced _ cfg.courses cfg.instructors cfg.rooms
      cfg.common v hv
    simpa using this

def junkResult : ScheduleResult :=
  { schedule := ⟨[]⟩, violations := [], warnings := [], attempts := 0, complete := false }

def r4 : ScheduleResult := (generate cfgC4 50).toOption.getD junkResult

/-- Claim C4, witness for the amended theorem on the concrete `cfgC4`. -/
theorem c4_witness : r4.violations.all (fun v => !(v.type == "UNPLACED")) = true :=
  c4_no_unplaced_kind cfgC4 50 r4 (by decide)

/-! ### Claim C3: behaviour at step-limit exhaustion -/

theorem tryLoop_false_restores (recur : SearchState → Bool × SearchState) (cfg : BeePlanConfig)
    (atom : SessionAtom)
    (hrec : ∀ s, (recur s).1 = false →
      (recur s).2.placements = s.placements ∧ (recur s).2.used_room = s.used_room ∧
        (recur s).2.used_ins = s.used_ins) :
    ∀ (cands : List (TimeSlot × String)) (st : SearchState),
      (tryLoop recur cfg atom cands st).1 = false →
      (tryLoop recur cfg atom cands st).2.placements = st.placements ∧
        (tryLoop recur cfg atom cands st).2.used_room = st.used_room ∧
        (tryLoop recur cfg atom cands st).2.used_ins = st.used_ins := by
  intro cands
  induction cands with
  | nil =>
    intro st _
    exact ⟨rfl, rfl, rfl⟩
  | cons c rest ih =>
    obtain ⟨slot, room_id⟩ := c
    intro st h
    simp only [tryLoop] at h ⊢
    by_cases h1 : (room_id, slot.day, slot.index) ∈ st.used_room
    · rw [if_pos h1] at h ⊢
      exact ih st h
    rw [if_neg h1] at h ⊢
    by_cases h2 : (atom.instructor_id, slot.day, slot.index) ∈ st.used_ins
    · rw [if_pos h2] at h ⊢
      exact ih st h
    rw [if_neg h2] at h ⊢
    rcases hscr : (if incremental_hard_violation ⟨(pushState st atom slot room_id).placements⟩
        cfg.courses cfg.instructors cfg.rooms cfg.common then
        (false, pushState st atom slot room_id)
      else recur (pushState st atom slot room_id)) with ⟨b, st2⟩
    rw [hscr] at h
    cases b
    · have hst2 : st2.placements = (pushState st atom slot room_id).placements ∧
          st2.used_room = (pushState st atom slot room_id).used_room ∧
          st2.used_ins = (pushState st atom slot room_id).used_ins := by
        split at hscr
        · obtain ⟨-, rfl⟩ := Prod.mk.injEq .. ▸ hscr
          exact ⟨rfl, rfl, rfl⟩
        · have hfst : (recur (pushState st atom slot room_id)).1 = false := by
            rw [hscr]
          have hsnd : (recur (pushState st atom slot room_id)).2 = st2 := by
            rw [hscr]
          rw [← hsnd]
          exact hrec _ hfst
      obtain ⟨e1, e2, e3⟩ := ih (popState st2 atom slot room_id) h
      refine ⟨?_, ?_, ?_⟩
      · rw [e1]
        simp [popState, hst2.1, pushState]
      · rw [e2]
        simp [popState, hst2.2.1, pushState, setAdd, if_neg h1]
      · rw [e3]
        simp [popState, hst2.2.2, pushState, setAdd, if_neg h2]
    · exact Bool.noConfusion h

theorem place_false_restores (cfg : BeePlanConfig) (limit : Nat) :
    ∀ (atoms : List SessionAtom) (st : SearchState),
      (place cfg limit atoms st).1 = false →
      (place cfg limit atoms st).2.placements = st.placements ∧
        (place cfg limit atoms st).2.used_room = st.used_room ∧
        (place cfg limit atoms st).2.used_ins = st.used_ins := by
  intro atoms
  induction atoms with
  | nil =>
    intro st _
    simp only [place]
    split
    · exact ⟨rfl, rfl, rfl⟩
    · exact ⟨rfl, rfl, rfl⟩
  | cons atom rest ih =>
    intro st h
    simp only [place] at h ⊢
    by_cases hl : st.attempts + 1 > limit
    · rw [if_pos hl]
      exact ⟨rfl, rfl, rfl⟩
    · rw [if_neg hl] at h ⊢
      exact tryLoop_false_restores _ cfg atom (fun s hs => ih s hs) _ _ h

/-- Backtracking discipline: whenever the search returns failure — in
particular on step-limit exhaustion — every placement made during the
search has been popped again, so the final schedule is empty. -/
theorem searchRun_false_empty (cfg : BeePlanConfig) (limit : Nat)
    (h : (searchRun cfg limit).1 = false) : (searchRun cfg limit).2.placements = [] :=
  (place_false_restores cfg limit (searchAtoms cfg) ⟨[], [], [], 0⟩ h).1

/-- A trivially satisfiable configuration: one one-hour theory course,
two open Monday slots, one theory room. -/
def cfgC3 : BeePlanConfig :=
  { common := { days := [.Mon], slots_per_day := 2, forbidden_slots := [] },
    courses := [{ id := "C", name := "C", year := 1, required := true, weekly_theory_hours := 1,
                  weekly_lab_hours := 0, instructor_id := "I", program := .CENG }],
    instructors := [{ id := "I", name := "N", availability := [⟨.Mon, 1⟩, ⟨.Mon, 2⟩] }],
    rooms := [{ id := "R", name := "R", capacity := 30, type := .theory }] }

/-- Claim C3, counterexample: with step limit 1 the counter exceeds the
limit during search (final attempts = 3 > 1) after placements were made
(each recursive call follows a push), yet the returned schedule is EMPTY
— nothing is retained — although a complete 1-placement schedule exists
(found with limit 10). The "best partial schedule" of the claim is not
returned. -/
theorem c3_counterexample :
    (generate cfgC3 1).toOption.map
        (fun r => (r.attempts, r.schedule.placements.length, r.complete))
      = some (3, 0, false) ∧
    (generate cfgC3 10).toOption.map
        (fun r => (r.schedule.placements.length, r.complete))
      = some (1, true) := by decide

/-- Claim C3 (amended): when the step counter exceeds the limit the
search returns failure, the unwinding pops every placement made, and
`generate` returns a ScheduleResult whose schedule is EMPTY — placements
made before exhaustion are NOT retained. -/
theorem c3_exhaustion_empties_schedule (cfg : BeePlanConfig) (limit : Nat) (r : ScheduleResult)
    (hgen : generate cfg limit = .ok r) (hfail : (searchRun cfg limit).1 = false) :
    r.schedule.placements = [] := by
  rw [generate] at hgen
  split at hgen
  · simp at hgen
  · rw [Except.ok.injEq] at hgen
    subst hgen
    exact searchRun_false_empty cfg limit hfail

def r3 : ScheduleResult := (generate cfgC3 1).toOption.getD junkResult

/-- Claim C3, witness for the amended theorem on `cfgC3` with limit 1. -/
theorem c3_witness : r3.schedule.placements = [] :=
  c3_exhaustion_empties_schedule cfgC3 1 r3 (by decide) (by decide)

/-! ### Claim C9: the complete flag -/

/-- Claim C9: `complete` is exactly the conjunction of search success
(leaf reached within the step limit) and the absence of hard violations
in the final evaluation; hence a complete result carries no hard
violation. -/
theorem c9_complete_definition (cfg : BeePlanConfig) (limit : Nat) (r : ScheduleResult)
    (hgen : generate cfg limit = .ok r) :
    r.complete = ((searchRun cfg limit).1
        && !(r.violations.any (fun v => v.severity == "hard"))) ∧
    (r.complete = true → ∀ v ∈ r.violations, v.severity ≠ "hard") := by
  rw [generate] at hgen
  split at hgen
  · simp at hgen
  · rw [Except.ok.injEq] at hgen
    subst hgen
    refine ⟨rfl, fun hc v hv => ?_⟩
    have hc2 : ((searchRun cfg limit).1
        && !((collect_violations ⟨(searchRun cfg limit).2.placements⟩ cfg.courses
          cfg.instructors cfg.rooms cfg.common).any (fun v => v.severity == "hard"))) = true := hc
    have hv2 : v ∈ collect_violations ⟨(searchRun cfg limit).2.placements⟩ cfg.courses
        cfg.instructors cfg.rooms cfg.common := hv
    rw [Bool.and_eq_true, Bool.not_eq_true'] at hc2
    have := List.any_eq_false.mp hc2.2 v hv2
    simpa using this

def cfgC9 : BeePlanConfig :=
  { common := { days := [.Mon], slots_per_day := 2, forbidden_slots := [] },
    courses := [{ id := "D", name := "D", year := 2, required := true, weekly_theory_hours := 1,
                  weekly_lab_hours := 0, instructor_id := "J", program := .SENG }],
    instructors := [{ id := "J", name := "M", availability := [⟨.Mon, 1⟩, ⟨.Mon, 2⟩] }],
    rooms := [{ id := "S", name := "S", capacity := 25, type := .theory }] }

def r9 : ScheduleResult := (generate cfgC9 10).toOption.getD junkResult

/-- Claim C9, witness at the concrete `cfgC9`. -/
theorem c9_witness :
    (r9.complete = ((searchRun cfgC9 10).1
        && !(r9.violations.any (fun v => v.severity == "hard")))) ∧
    (r9.complete = true → ∀ v ∈ r9.violations, v.severity ≠ "hard") :=
  c9_complete_definition cfgC9 10 r9 (by decide)

/-! ### Claim C10: determinism -/

/-- Claim C10: `generate` is a pure function of the configuration and the
step limit — two runs on equal inputs return equal ScheduleResults
(schedule, violations, warnings, attempts and complete all included). -/
theorem c10_deterministic (cfg1 cfg2 : BeePlanConfig) (limit1 limit2 : Nat)
    (hc : cfg1 = cfg2) (hl : limit1 = limit2) :
    generate cfg1 limit1 = generate cfg2 limit2 := by
  rw [hc, hl]

def cfgC10 : BeePlanConfig :=
  { common := { days := [.Tue], slots_per_day := 1, forbidden_slots := [] },
    courses := [{ id := "E", name := "E", year := 1, required := true, weekly_theory_hours := 1,
                  weekly_lab_hours := 0, instructor_id := "K", program := .CENG }],
    instructors := [{ id := "K", name := "K", availability := [⟨.Tue, 1⟩] }],
    rooms := [{ id := "T", name := "T", capacity := 20, type := .theory }] }

/-- Claim C10, witness at a concrete configuration and limit. -/
theorem c10_witness : generate cfgC10 5 = generate cfgC10 5 :=
  c10_deterministic cfgC10 cfgC10 5 5 rfl rfl

/-! ### Claim C2: atom multiplicity -/

/-- One course requiring two weekly theory hours, with room to place
both. -/
def cfgC2 : BeePlanConfig :=
  { common := { days := [.Mon], slots_per_day := 2, forbidden_slots := [] },
    courses := [{ id := "C", name := "C", year := 1, required := true, weekly_theory_hours := 2,
                  weekly_lab_hours := 0, instructor_id := "I", program := .CENG }],
    instructors := [{ id := "I", name := "N", availability := [⟨.Mon, 1⟩, ⟨.Mon, 2⟩] }],
    rooms := [{ id := "R", name := "R", capacity := 30, type := .theory }] }

/-- Claim C2, code-bug evidence: `build_atoms` emits the two theory atoms
the claim promises, but the two equal (frozen, hashable) atoms collapse
onto ONE key of the domains dict, so the engine searches a single
variable: `generate` returns `complete = true` with only ONE placement,
not weekly_theory_hours = 2 placements — contradicting the atomizer
contract and `ScheduleResult`'s own documentation ("complete: True if no
hard violations and all atoms placed"). -/
theorem c2_atom_collapse_evidence :
    (build_atoms cfgC2.courses).length = 2 ∧
    ((build_atoms cfgC2.courses).filter
        (fun a => decide (a.session_type = .theory))).length = 2 ∧
    (dedupFirst (build_atoms cfgC2.courses)).length = 1 ∧
    (searchAtoms cfgC2).length = 1 ∧
    (generate cfgC2 100).toOption.map (fun r => (r.schedule.placements.length, r.complete))
      = some (1, true) := by decide

end BeePlan
